import Mathlib

/-!
Verification of the Glulx game-driver session layer (git_glulx_ml):
output normalization, event-tag scanning, turn snapshots and the
session driver.  Text is modelled as a list of characters; machinery
imported by the source from outside this file (the quest progression
tracker, the action-to-command grammar, the base game-state class and
the subprocess transport) is modelled abstractly from the design
document, as noted on each such definition.
-/

/-- Python exception kinds raised by the embedded code paths. -/
inductive PyError where
  | gameNotRunning
  | stateTrackingRequired (info : List Char)
  | oraclePolicyRequired (info : List Char)
  | extraInfosMissing (info : List Char)
  | assertionError
  | valueError
deriving DecidableEq, Repr

/-- Whitespace set used by the Python str.strip method. -/
def isPySpace (c : Char) : Bool :=
  c == ' ' || c == '\t' || c == '\n' || c == '\r' || c == '\x0b' || c == '\x0c'

/-- Python str.strip: remove leading and trailing whitespace. -/
def pyStrip (l : List Char) : List Char :=
  ((l.dropWhile isPySpace).reverse.dropWhile isPySpace).reverse

/-- Split a text at the first occurrence of a pattern: returns the part
before the occurrence and the part after it.  Models the leftmost match
of a literal pattern in a Python regex or str.index search. -/
def splitFirst (pat : List Char) : List Char → Option (List Char × List Char)
  | [] => if pat.isEmpty then some ([], []) else none
  | c :: cs =>
    if pat.isPrefixOf (c :: cs) then some ([], (c :: cs).drop pat.length)
    else (splitFirst pat cs).map (fun p => (c :: p.1, p.2))

/-- Split a text at the last occurrence of a pattern.  Models the span
chosen by a greedy dot-all capture followed by the pattern. -/
def splitLast (pat : List Char) : List Char → Option (List Char × List Char)
  | [] => if pat.isEmpty then some ([], []) else none
  | c :: cs =>
    match splitLast pat cs with
    | some p => some (c :: p.1, p.2)
    | none =>
      if pat.isPrefixOf (c :: cs) then some ([], (c :: cs).drop pat.length) else none

/-- Substring containment, as the Python in operator on strings. -/
def occurs (pat s : List Char) : Bool := (splitFirst pat s).isSome

/-- Python str.replace with an empty replacement: removes every
non-overlapping occurrence of the pattern, scanning left to right.
Each step consumes at least one character, so a fuel of the text
length suffices for totality. -/
def removeAllAux (fuel : Nat) (pat : List Char) (s : List Char) : List Char :=
  match fuel with
  | 0 => s
  | fuel + 1 =>
    match s with
    | [] => []
    | c :: cs =>
      if pat ≠ [] ∧ pat.isPrefixOf (c :: cs) then removeAllAux fuel pat ((c :: cs).drop pat.length)
      else c :: removeAllAux fuel pat cs

/-- Removal of every occurrence of a non-empty pattern. -/
def removeAll (pat : List Char) (s : List Char) : List Char := removeAllAux s.length pat s

/-- Token scan for the regex pattern matching a bracketed tag not
preceded by an escape character: an opening bracket with a valid
lookbehind, one or more characters other than a closing bracket, the
closing bracket, and an optional trailing newline (greedy).  Returns
the matched token strings in text order, non-overlapping, scanning
left to right, as Python re.findall does.  Each step consumes at least
one character, so a fuel of the text length suffices for totality. -/
def findTokensAux (fuel : Nat) (prev : Option Char) (l : List Char) : List (List Char) :=
  match fuel with
  | 0 => []
  | fuel + 1 =>
    match l with
    | [] => []
    | c :: rest =>
      let body := rest.takeWhile (fun d => d != ']')
      let rest2 := rest.dropWhile (fun d => d != ']')
      if c = '[' ∧ prev ≠ some '\x1b' ∧ body ≠ [] ∧ rest2 ≠ [] then
        match rest2.tail with
        | '\n' :: after2 => ('[' :: body ++ [']', '\n']) :: findTokensAux fuel (some '\n') after2
        | after => ('[' :: body ++ [']']) :: findTokensAux fuel (some ']') after
      else
        findTokensAux fuel (some c) rest

/-- All debug-tag tokens of a text, in text order. -/
def findTokens (l : List Char) : List (List Char) := findTokensAux l.length none l

/-- Tag name of a matched token: Python strip then slicing away the
first and last characters, which removes the trailing newline if any
and then the surrounding brackets. -/
def tagNameOf (tok : List Char) : List Char := ((pyStrip tok).drop 1).dropLast

/-- Python list.remove: drop the first occurrence of an element,
none when the element is absent (a ValueError in Python). -/
def listRemove (x : List Char) : List (List Char) → Option (List (List Char))
  | [] => none
  | y :: ys => if y = x then some ys else (listRemove x ys).map (y :: ·)

def failedMarker : List Char := " - failed".toList

def succeededMarker : List Char := " - succeeded".toList

/-- Loop body of the event-tag scanner: for each token in order, remove
every occurrence of the token from the text, then dispatch on the tag
name: a name containing the failed marker closes (first-occurrence
removal) the open tag named by the part before the first marker; a name
containing the succeeded marker does the same and also appends that base
name to the success list; any other name is pushed onto the open list.
A close without a matching open is a ValueError. -/
def processTokens :
    List (List Char) → List Char → List (List Char) → List (List Char) →
    Except PyError (List (List Char) × List (List Char) × List Char)
  | [], text, opens, ms => .ok (ms, opens, text)
  | tok :: toks, text, opens, ms =>
    let text2 := removeAll tok text
    let body := tagNameOf tok
    match splitFirst failedMarker body with
    | some p =>
      match listRemove p.1 opens with
      | none => .error .valueError
      | some opens2 => processTokens toks text2 opens2 ms
    | none =>
      match splitFirst succeededMarker body with
      | some p =>
        match listRemove p.1 opens with
        | none => .error .valueError
        | some opens2 => processTokens toks text2 opens2 (ms ++ [p.1])
      | none => processTokens toks text2 (opens ++ [body]) ms

/-- Embedding of the source event-tag scanner: find all debug-tag
tokens, process them against an initially empty open-tag stack and
success list, drop recorded successes whose name contains a
parenthesis, and finally fail with an AssertionError when the kept
success list is non-empty while the open-tag stack is non-empty. -/
def detect_i7_events_debug_tags (text : List Char) :
    Except PyError (List (List Char) × List Char) :=
  match processTokens (findTokens text) text [] [] with
  | .error e => .error e
  | .ok (ms, opens, text2) =>
    let kept := ms.filter (fun m => !(m.contains '(') && !(m.contains ')'))
    if kept.length > 0 ∧ opens.length ≠ 0 then .error .assertionError
    else .ok (kept, text2)

def promptMarker : List Char := "\n>".toList

/-- Embedding of the trailing-prompt stripper. -/
def strip_input_prompt_symbol (text : List Char) : List Char :=
  if promptMarker.isSuffixOf text then text.take (text.length - 2) else text

def descKey : List Char := "description".toList

def invKey : List Char := "inventory".toList

def scoreKey : List Char := "score".toList

/-- Opening side-channel block marker for a tag name. -/
def blockOpen (tag : List Char) : List Char := '<' :: tag ++ ['>', '\n']

/-- Closing side-channel block marker for a tag name. -/
def blockClose (tag : List Char) : List Char := '<' :: '/' :: tag ++ ['>']

/-- One side-channel tag extraction: the regex match spans from the
first opening marker to the last closing marker after it (the capture
is greedy and dot-all); when both are present the whole span is removed
from the text and the inner content, cleaned of event tags, is recorded
under the tag name. -/
def applyTag (tag : List Char) (acc : List (List Char × List Char) × List Char) :
    Except PyError (List (List Char × List Char) × List Char) :=
  match splitFirst (blockOpen tag) acc.2 with
  | none => .ok acc
  | some pr =>
    match splitLast (blockClose tag) pr.2 with
    | none => .ok acc
    | some ip =>
      match detect_i7_events_debug_tags ip.1 with
      | .error e => .error e
      | .ok r => .ok (acc.1 ++ [(tag, r.2)], pr.1 ++ ip.2)

/-- Embedding of the side-channel fact extractor: the three registered
tags are tried in order, each removing its block from the running text. -/
def detect_extra_infos (text : List Char) :
    Except PyError (List (List Char × List Char) × List Char) := do
  let a1 ← applyTag descKey ([], text)
  let a2 ← applyTag invKey a1
  applyTag scoreKey a2

/-- A quest action.  The claims never inspect actions, only route them
through the tracker and the command grammar. -/
structure I7Action where
  aid : Nat
deriving DecidableEq, Repr

/-- Modelled from the spec: behavior of the quest progression tracker
(the GameProgression class consumed from the generator package, absent
from the sources under review).  Its internal graph state is abstracted
to a value of type Nat together with the derived read views the design
document lists: currently valid actions, completed and failed terminal
flags, score, shortest remaining winning policy, and the fixed maximal
score, plus the transition applied when a resolved action is fed in. -/
structure QuestOracle where
  stateUpdate : Nat → I7Action → Nat
  validActionsF : Nat → List I7Action
  completedF : Nat → Bool
  failedF : Nat → Bool
  scoreF : Nat → Int
  winningPolicyF : Nat → Option (List I7Action)
  maxScore : Int

/-- A live progression tracker: the static oracle plus the current
abstract graph state. -/
structure GameProgression where
  oracle : QuestOracle
  ps : Nat

def GameProgression.valid_actions (gp : GameProgression) : List I7Action :=
  gp.oracle.validActionsF gp.ps

def GameProgression.completed (gp : GameProgression) : Bool := gp.oracle.completedF gp.ps

def GameProgression.failed (gp : GameProgression) : Bool := gp.oracle.failedF gp.ps

def GameProgression.progScore (gp : GameProgression) : Int := gp.oracle.scoreF gp.ps

def GameProgression.winning_policy (gp : GameProgression) : Option (List I7Action) :=
  gp.oracle.winningPolicyF gp.ps

def GameProgression.updateAction (gp : GameProgression) (a : I7Action) : GameProgression :=
  { gp with ps := gp.oracle.stateUpdate gp.ps a }

/-- Modelled from the spec: the static command-generation grammar (the
Inform7Game helper consumed from the generator package): resolving an
event name against the currently valid actions, and rendering an action
sequence into natural-language commands. -/
structure Inform7Game where
  detect_action : List Char → List I7Action → Option I7Action
  gen_commands_from_actions : List I7Action → List (List Char)

/-- Modelled from the spec: the static, read-only game definition
loaded before a session starts: its quest list, objective text, the
progression oracle with its initial graph state, and the command
grammar. -/
structure Game where
  quests : List Nat
  objective : List Char
  oracle : QuestOracle
  initProgState : Nat
  inform7 : Inform7Game

/-- Turn snapshot: the stored attributes of the Glulx game state.  The
lazily cached Python attributes that are always recomputed to the same
value from these stored fields are modelled as pure property functions;
the score cache is stored explicitly because the initial snapshot
assigns it directly. -/
structure GlulxGameState where
  command : Option (List Char)
  feedback : List Char
  objective : List Char
  extra_infos : List (List Char × List Char)
  nb_moves : Nat
  previous_state : Option GlulxGameState
  game_progression : GameProgression
  inform7 : Inform7Game
  state_tracking : Bool
  compute_intermediate_reward : Bool
  score_cache : Option Int
  max_score : Int
  has_timeout : Bool

def intermediateRewardName : List Char := "intermediate_reward".toList

def policyCommandsName : List Char := "policy_commands".toList

def admissibleCommandsName : List Char := "admissible_commands".toList

def wonBanner : List Char := "*** The End ***".toList

def lostBanner : List Char := "*** You lost! ***".toList

/-- First-match association lookup, as a Python dict read. -/
def lookupFact (k : List Char) : List (List Char × List Char) → Option (List Char)
  | [] => none
  | p :: t => if p.1 = k then some p.2 else lookupFact k t

/-- Python dict merge of two fact maps: keys of the old map first with
updated values, then keys only in the new map, in order. -/
def mergeFacts (old new : List (List Char × List Char)) : List (List Char × List Char) :=
  old.map (fun p => (p.1, (lookupFact p.1 new).getD p.2)) ++
    new.filter (fun p => lookupFact p.1 old = none)

/-- Python int() on a string: strip whitespace, an optional sign, then
one or more digits. -/
def parsePyInt (l : List Char) : Option Int :=
  let digits : List Char → Option Int := fun ds =>
    if ds ≠ [] ∧ ds.all Char.isDigit then
      some (ds.foldl (fun a c => a * 10 + ((c.toNat : Int) - 48)) 0)
    else none
  match pyStrip l with
  | '-' :: ds => (digits ds).map (fun n => -n)
  | '+' :: ds => digits ds
  | ds => digits ds

/-- Embedding of the has_won property: the tracker terminal state when
intermediate-reward computation is on, otherwise a literal banner
substring match on the feedback. -/
def has_won (st : GlulxGameState) : Bool :=
  if st.compute_intermediate_reward then st.game_progression.completed
  else occurs wonBanner st.feedback

/-- Embedding of the has_lost property. -/
def has_lost (st : GlulxGameState) : Bool :=
  if st.compute_intermediate_reward then st.game_progression.failed
  else occurs lostBanner st.feedback

/-- Embedding of the game_ended property. -/
def game_ended (st : GlulxGameState) : Bool :=
  has_won st || has_lost st || st.has_timeout

/-- Embedding of the score property: a previously assigned score is
returned as is; otherwise the tracker score when state tracking is on,
else the score side-channel fact parsed as an integer, which is a
missing-info error when the fact was never observed. -/
def score (st : GlulxGameState) : Except PyError Int :=
  match st.score_cache with
  | some v => .ok v
  | none =>
    if st.state_tracking then .ok st.game_progression.progScore
    else
      match lookupFact scoreKey st.extra_infos with
      | none => .error (.extraInfosMissing scoreKey)
      | some v =>
        match parsePyInt v with
        | none => .error .valueError
        | some n => .ok n

/-- Embedding of the policy_commands property: requires the
intermediate-reward capability; the empty list when the tracker has no
winning policy, else the rendered commands of that policy. -/
def policy_commands (st : GlulxGameState) : Except PyError (List (List Char)) :=
  if ¬ st.compute_intermediate_reward then .error (.oraclePolicyRequired policyCommandsName)
  else
    .ok (match st.game_progression.winning_policy with
      | none => []
      | some wp => st.inform7.gen_commands_from_actions wp)

/-- Python sorted(set(l)) over strings: duplicates removed, ascending
lexicographic order. -/
def sortedSet (l : List (List Char)) : List (List Char) :=
  l.dedup.insertionSort (· ≤ ·)

/-- Embedding of the admissible_commands property: requires state
tracking; renders every currently valid action and returns the sorted
deduplicated command list. -/
def admissible_commands (st : GlulxGameState) : Except PyError (List (List Char)) :=
  if ¬ st.state_tracking then .error (.stateTrackingRequired admissibleCommandsName)
  else .ok (sortedSet (st.inform7.gen_commands_from_actions st.game_progression.valid_actions))

/-- Embedding of the intermediate_reward property: requires the
intermediate-reward capability; one on a won snapshot, minus one on a
lost one, zero with no previous snapshot, else the sign of the drop in
winning-policy length from the previous snapshot to this one. -/
def intermediate_reward (st : GlulxGameState) : Except PyError Int :=
  if ¬ st.compute_intermediate_reward then .error (.oraclePolicyRequired intermediateRewardName)
  else if has_won st then .ok 1
  else if has_lost st then .ok (-1)
  else
    match st.previous_state with
    | none => .ok 0
    | some prev => do
      let p ← policy_commands prev
      let c ← policy_commands st
      .ok (Int.sign ((p.length : Int) - (c.length : Int)))

/-- Embedding of the view method: the copy of the current snapshot
taken as the previous-state link of the next one.  Its Python body
resolves and stores each cached property; in this value-semantics model
every such cache agrees with recomputation from the stored fields, so
only the score assignment is material, and it can fail exactly as the
score property does. -/
def view (st : GlulxGameState) : Except PyError GlulxGameState := do
  let sc ← score st
  .ok { st with score_cache := some sc }

/-- Feed the detected events to the tracker: each event is resolved
against the currently valid actions and, when it names a valid action,
advances the tracker. -/
def applyEvents (i7 : Inform7Game) (gp : GameProgression) (events : List (List Char)) :
    GameProgression :=
  events.foldl
    (fun g ev =>
      match i7.detect_action ev g.valid_actions with
      | none => g
      | some a => g.updateAction a)
    gp

/-- Embedding of the update method: strip the prompt, extract the
side-channel facts, link a view of the current snapshot as previous
state, extract the events to produce the clean feedback, and feed them
to the tracker only under state tracking.  The move counter and the
fresh-snapshot fields set by the base class are modelled from the spec:
the count grows by one per update and derived caches start unset. -/
def update (st : GlulxGameState) (command : List Char) (output : List Char) :
    Except PyError GlulxGameState := do
  let (extra, o2) ← detect_extra_infos (strip_input_prompt_symbol output)
  let prev ← view st
  let (events, feedback) ← detect_i7_events_debug_tags o2
  let gp := if st.state_tracking then applyEvents st.inform7 st.game_progression events
            else st.game_progression
  .ok { command := some command
        feedback := feedback
        objective := st.objective
        extra_infos := mergeFacts st.extra_infos extra
        nb_moves := st.nb_moves + 1
        previous_state := some prev
        game_progression := gp
        inform7 := st.inform7
        state_tracking := st.state_tracking
        compute_intermediate_reward := st.compute_intermediate_reward
        score_cache := none
        max_score := st.max_score
        has_timeout := false }

/-- Embedding of the init method: strip the prompt, drop the boot-text
event tags, extract the side-channel facts, and build the initial
snapshot: no command, no previous state, zero moves, score assigned
zero, and the intermediate-reward capability granted only when the
game has at least one quest.  The base-class fields are modelled from
the spec as for update. -/
def init (output : List Char) (game : Game) (state_tracking : Bool)
    (compute_intermediate_reward : Bool) : Except PyError GlulxGameState := do
  let (_, o2) ← detect_i7_events_debug_tags (strip_input_prompt_symbol output)
  let (extra, o3) ← detect_extra_infos o2
  .ok { command := none
        feedback := o3
        objective := game.objective
        extra_infos := extra
        nb_moves := 0
        previous_state := none
        game_progression := { oracle := game.oracle, ps := game.initProgState }
        inform7 := game.inform7
        state_tracking := state_tracking
        compute_intermediate_reward :=
          compute_intermediate_reward && decide (game.quests.length > 0)
        score_cache := some 0
        max_score := game.oracle.maxScore
        has_timeout := false }

/-- Modelled from the spec: one observed round trip of the black-box
subprocess transport: whether the process is alive when the step is
entered, the response to a sent command (none when the channel closes
mid-call), and whether the process is still alive after the exchange. -/
structure Transport where
  alive : Bool
  respond : List Char → Option (List Char)
  aliveAfter : Bool

/-- Command actually sent by a step call: the stripped command, with an
empty result replaced by a single space. -/
def sentCommand (command : List Char) : List Char :=
  let c := pyStrip command
  if c.length = 0 then [' '] else c

/-- Embedding of the step method: not-running failure when the process
is dead on entry, the stripped command sent with empty input normalized
to one space, not-running failure when the channel closes mid-call,
otherwise the updated snapshot with its timeout flag set to whether the
process has exited, returned with its score and its game-ended flag. -/
def stepEnv (t : Transport) (st : GlulxGameState) (command : List Char) :
    Except PyError (GlulxGameState × Int × Bool) := do
  if ¬ t.alive then .error .gameNotRunning
  else
    match (if t.alive then t.respond (sentCommand command) else none) with
    | none => .error .gameNotRunning
    | some output => do
      let st1 ← update st (pyStrip command) output
      let st2 := { st1 with has_timeout := !t.aliveAfter }
      let sc ← score st2
      .ok (st2, sc, game_ended st2)

/-- Specification-side event pass over the token list, written from the
claim wording with the amended marker test: a tag name containing the
failed marker (checked first) or the succeeded marker closes the open
event named by the part before the first marker occurrence (failed
closures are discarded, succeeded ones recorded in encounter order,
a closure without a matching open event is fatal); any other name opens
a new event.  Structured independently of the text pass, building the
success list by consing. -/
def specEventsContain : List (List Char) → List (List Char) →
    Except PyError (List (List Char) × List (List Char))
  | [], opens => .ok ([], opens)
  | tok :: toks, opens =>
    let body := tagNameOf tok
    match splitFirst failedMarker body with
    | some p =>
      match listRemove p.1 opens with
      | none => .error .valueError
      | some opens2 => specEventsContain toks opens2
    | none =>
      match splitFirst succeededMarker body with
      | some p =>
        match listRemove p.1 opens with
        | none => .error .valueError
        | some opens2 =>
          match specEventsContain toks opens2 with
          | .error e => .error e
          | .ok r => .ok (p.1 :: r.1, r.2)
      | none => specEventsContain toks (opens ++ [body])

/-- Specification-side event pass with the marker test exactly as the
claim words it: a tag name ending in the succeeded or failed marker
closes the open event named by the part before that suffix; a name with
neither suffix opens a new event. -/
def specEventsSuffix : List (List Char) → List (List Char) →
    Except PyError (List (List Char) × List (List Char))
  | [], opens => .ok ([], opens)
  | tok :: toks, opens =>
    let body := tagNameOf tok
    if succeededMarker.isSuffixOf body then
      let base := body.take (body.length - succeededMarker.length)
      match listRemove base opens with
      | none => .error .valueError
      | some opens2 =>
        match specEventsSuffix toks opens2 with
        | .error e => .error e
        | .ok r => .ok (base :: r.1, r.2)
    else if failedMarker.isSuffixOf body then
      let base := body.take (body.length - failedMarker.length)
      match listRemove base opens with
      | none => .error .valueError
      | some opens2 => specEventsSuffix toks opens2
    else specEventsSuffix toks (opens ++ [body])

/-- Specification-side text pass: every matched token removed from the
text, tokens applied in text order. -/
def specClean (text : List Char) (toks : List (List Char)) : List Char :=
  toks.foldl (fun t tok => removeAll tok t) text

/-- Specification-side scanner with the amended (containment) marker
test: token list, event pass, parenthesis filter, balance check, text
pass. -/
def specScanContain (text : List Char) : Except PyError (List (List Char) × List Char) :=
  let toks := findTokens text
  match specEventsContain toks [] with
  | .error e => .error e
  | .ok r =>
    let kept := r.1.filter (fun m => !(m.contains '(') && !(m.contains ')'))
    if kept.length > 0 ∧ r.2.length ≠ 0 then .error .assertionError
    else .ok (kept, specClean text toks)

/-- Specification-side scanner with the marker test as the claim words
it (suffix match). -/
def specScanSuffix (text : List Char) : Except PyError (List (List Char) × List Char) :=
  let toks := findTokens text
  match specEventsSuffix toks [] with
  | .error e => .error e
  | .ok r =>
    let kept := r.1.filter (fun m => !(m.contains '(') && !(m.contains ')'))
    if kept.length > 0 ∧ r.2.length ≠ 0 then .error .assertionError
    else .ok (kept, specClean text toks)

/-- A progression oracle for concrete instances: no valid actions, no
terminal state, score zero, and a winning policy whose length is the
abstract graph state. -/
def trivOracle : QuestOracle :=
  { stateUpdate := fun s _ => s
    validActionsF := fun _ => []
    completedF := fun _ => false
    failedF := fun _ => false
    scoreF := fun _ => 0
    winningPolicyF := fun s => some (List.replicate s ⟨0⟩)
    maxScore := 0 }

/-- A command grammar for concrete instances: no action detection, each
action rendered as a one-letter command. -/
def trivI7 : Inform7Game :=
  { detect_action := fun _ _ => none
    gen_commands_from_actions := fun l => l.map (fun _ => ['g']) }

/-- A concrete snapshot scheme over the trivial oracle. -/
def baseState (ps : Nat) (prev : Option GlulxGameState) : GlulxGameState :=
  { command := none
    feedback := []
    objective := []
    extra_infos := []
    nb_moves := 0
    previous_state := prev
    game_progression := { oracle := trivOracle, ps := ps }
    inform7 := trivI7
    state_tracking := false
    compute_intermediate_reward := true
    score_cache := some 0
    max_score := 0
    has_timeout := false }

/-- A concrete snapshot with the intermediate-reward capability off. -/
def rewardOffState : GlulxGameState :=
  { baseState 0 none with compute_intermediate_reward := false }

/-- A concrete quest-free game over the trivial oracle. -/
def gameW : Game :=
  { quests := []
    objective := []
    oracle := trivOracle
    initProgState := 0
    inform7 := trivI7 }

/-- The initial snapshot produced by init on empty boot text for the
quest-free game, spelled out. -/
def initialStateW : GlulxGameState :=
  { command := none
    feedback := []
    objective := []
    extra_infos := []
    nb_moves := 0
    previous_state := none
    game_progression := { oracle := trivOracle, ps := 0 }
    inform7 := trivI7
    state_tracking := false
    compute_intermediate_reward := false
    score_cache := some 0
    max_score := 0
    has_timeout := false }

/-- A snapshot with an unset score cache and an observed score fact. -/
def c6state : GlulxGameState :=
  { initialStateW with score_cache := none, extra_infos := [(scoreKey, ['7'])] }

/-- A command grammar rendering a fixed command list with a duplicate. -/
def c5I7 : Inform7Game :=
  { detect_action := fun _ _ => none
    gen_commands_from_actions := fun _ => [['b'], ['a'], ['b']] }

/-- A state-tracking snapshot over the duplicate-producing grammar. -/
def c5state : GlulxGameState :=
  { initialStateW with state_tracking := true, inform7 := c5I7 }

/-- A transport that is dead on entry. -/
def deadTransport : Transport :=
  { alive := false, respond := fun _ => none, aliveAfter := false }

/-- A transport that answers with the winning banner and then exits. -/
def cexTransport : Transport :=
  { alive := true, respond := fun _ => some wonBanner, aliveAfter := false }

/-- The pre-step snapshot for the step counterexample: no tracking, a
previously observed score fact. -/
def c4state : GlulxGameState :=
  { initialStateW with extra_infos := [(scoreKey, ['0'])] }

/-- The step result of the counterexample run, extracted. -/
def c4out : GlulxGameState × Int × Bool :=
  match stepEnv cexTransport c4state ['x'] with
  | .ok r => r
  | .error _ => (c4state, 0, false)

/-- The nested raw text for the side-channel counterexample: a score
block contained inside a description block. -/
def c8nested : List Char := "<description>\n<score>\n7\n</score></description>".toList

theorem int_sign_cases (x : Int) : Int.sign x = -1 ∨ Int.sign x = 0 ∨ Int.sign x = 1 := by
  rcases x with (_ | n) | n
  · right; left; rfl
  · right; right; rfl
  · left; rfl

/-- Claim C1: with the intermediate-reward capability on, the
intermediate reward is one when the snapshot has won, else minus one
when it has lost, else zero without a previous snapshot, else the sign
of the previous policy length minus the current one; every returned
value lies in the set of minus one, zero and one; with the capability
off the access fails with the oracle-policy capability error. -/
theorem claim_C1 (st : GlulxGameState) :
    (st.compute_intermediate_reward = false →
      intermediate_reward st = .error (.oraclePolicyRequired intermediateRewardName)) ∧
    (∀ r : Int, intermediate_reward st = .ok r → r = -1 ∨ r = 0 ∨ r = 1) ∧
    (st.compute_intermediate_reward = true →
      (has_won st = true → intermediate_reward st = .ok 1) ∧
      (has_won st = false → has_lost st = true → intermediate_reward st = .ok (-1)) ∧
      (has_won st = false → has_lost st = false → st.previous_state = none →
        intermediate_reward st = .ok 0) ∧
      (∀ prev pc cc, st.previous_state = some prev →
        has_won st = false → has_lost st = false →
        policy_commands prev = .ok pc → policy_commands st = .ok cc →
        intermediate_reward st = .ok (Int.sign ((pc.length : Int) - (cc.length : Int))))) := by
  refine ⟨?_, ?_, ?_⟩
  · intro h
    simp [intermediate_reward, h]
  · intro r hr
    cases hfl : st.compute_intermediate_reward with
    | false => simp [intermediate_reward, hfl] at hr
    | true =>
      cases hw : has_won st with
      | true => simp [intermediate_reward, hfl, hw] at hr; omega
      | false =>
        cases hl : has_lost st with
        | true => simp [intermediate_reward, hfl, hw, hl] at hr; omega
        | false =>
          cases hp : st.previous_state with
          | none => simp [intermediate_reward, hfl, hw, hl, hp] at hr; omega
          | some prev =>
            simp only [intermediate_reward, hfl, hw, hl, hp] at hr
            simp at hr
            cases hpc : policy_commands prev with
            | error e => rw [hpc] at hr; simp [Bind.bind, Except.bind] at hr
            | ok pc =>
              rw [hpc] at hr
              simp only [Bind.bind, Except.bind] at hr
              cases hcc : policy_commands st with
              | error e => rw [hcc] at hr; simp at hr
              | ok cc =>
                rw [hcc] at hr
                simp at hr
                rcases int_sign_cases ((pc.length : Int) - (cc.length : Int)) with
                  h | h | h <;> omega
  · intro hf
    refine ⟨?_, ?_, ?_, ?_⟩
    · intro hw; simp [intermediate_reward, hf, hw]
    · intro hw hl; simp [intermediate_reward, hf, hw, hl]
    · intro hw hl hp; simp [intermediate_reward, hf, hw, hl, hp]
    · intro prev pc cc hp hw hl hpc hcc
      simp [intermediate_reward, hf, hw, hl, hp, hpc, hcc, Bind.bind, Except.bind]

theorem claim_C1_witness :
    intermediate_reward (baseState 1 (some (baseState 3 none))) =
      Except.ok (Int.sign ((([['g'], ['g'], ['g']] : List (List Char)).length : Int) -
        (([['g']] : List (List Char)).length : Int))) ∧
    intermediate_reward rewardOffState =
      Except.error (PyError.oraclePolicyRequired intermediateRewardName) :=
  ⟨((claim_C1 (baseState 1 (some (baseState 3 none)))).2.2 rfl).2.2.2
      (baseState 3 none) [['g'], ['g'], ['g']] [['g']] rfl rfl rfl rfl rfl,
    (claim_C1 rewardOffState).1 rfl⟩

/-- Claim C2: whenever the token pass completes and the kept success
list is non-empty while the open-tag stack is non-empty, the scanner
fails with the assertion error kind rather than returning a result;
and the unbalanced close-without-open input fails with the distinct
value-error kind rather than returning a result. -/
theorem claim_C2 :
    (∀ text ms opens ctext,
      processTokens (findTokens text) text [] [] = .ok (ms, opens, ctext) →
      ms.filter (fun m => !(m.contains '(') && !(m.contains ')')) ≠ [] →
      opens ≠ [] →
      detect_i7_events_debug_tags text = .error .assertionError) ∧
    detect_i7_events_debug_tags "[foo - succeeded]".toList = .error .valueError := by
  constructor
  · intro text ms opens ctext h hk ho
    unfold detect_i7_events_debug_tags
    rw [h]
    dsimp only
    have hcond : (ms.filter (fun m => !(m.contains '(') && !(m.contains ')'))).length > 0 ∧
        opens.length ≠ 0 := ⟨List.length_pos.mpr hk, by simpa using ho⟩
    rw [if_pos hcond]
  · rfl

theorem claim_C2_witness :
    detect_i7_events_debug_tags "[a]\n[b]\n[b - succeeded]\n".toList =
      Except.error PyError.assertionError :=
  claim_C2.1 "[a]\n[b]\n[b - succeeded]\n".toList [['b']] [['a']] [] rfl
    (by decide) (by decide)

/-- Claim C9: the initial snapshot stores a score of zero, so its score
read returns zero and never fails, whatever the tracking flags and the
observed facts. -/
theorem claim_C9 (output : List Char) (game : Game) (tracking cir : Bool)
    (st : GlulxGameState) (h : init output game tracking cir = .ok st) :
    st.score_cache = some 0 ∧ score st = .ok 0 := by
  simp only [init] at h
  cases h1 : detect_i7_events_debug_tags (strip_input_prompt_symbol output) with
  | error e => rw [h1] at h; simp [Bind.bind, Except.bind] at h
  | ok p =>
    rw [h1] at h
    simp only [Bind.bind, Except.bind] at h
    cases h2 : detect_extra_infos p.2 with
    | error e => rw [h2] at h; simp at h
    | ok q =>
      rw [h2] at h
      cases h
      exact ⟨rfl, rfl⟩

theorem claim_C9_witness : score initialStateW = Except.ok 0 :=
  (claim_C9 [] gameW false false initialStateW rfl).2

/-- Claim C10: on a game with no quests, init forces the
intermediate-reward capability off even when the caller requested it,
so both the intermediate reward and the policy commands fail with the
oracle-policy capability error. -/
theorem claim_C10 (output : List Char) (game : Game) (tracking : Bool)
    (st : GlulxGameState) (hq : game.quests = [])
    (h : init output game tracking true = .ok st) :
    st.compute_intermediate_reward = false ∧
    intermediate_reward st = .error (.oraclePolicyRequired intermediateRewardName) ∧
    policy_commands st = .error (.oraclePolicyRequired policyCommandsName) := by
  have hflag : st.compute_intermediate_reward = false := by
    simp only [init] at h
    cases h1 : detect_i7_events_debug_tags (strip_input_prompt_symbol output) with
    | error e => rw [h1] at h; simp [Bind.bind, Except.bind] at h
    | ok p =>
      rw [h1] at h
      simp only [Bind.bind, Except.bind] at h
      cases h2 : detect_extra_infos p.2 with
      | error e => rw [h2] at h; simp at h
      | ok q =>
        rw [h2] at h
        cases h
        simp [hq]
  exact ⟨hflag, by simp [intermediate_reward, hflag], by simp [policy_commands, hflag]⟩

theorem claim_C10_witness :
    intermediate_reward initialStateW =
      Except.error (PyError.oraclePolicyRequired intermediateRewardName) ∧
    policy_commands initialStateW =
      Except.error (PyError.oraclePolicyRequired policyCommandsName) :=
  ⟨(claim_C10 [] gameW false initialStateW rfl rfl).2.1,
    (claim_C10 [] gameW false initialStateW rfl rfl).2.2⟩

/-- Claim C6 counterexample: the initial snapshot of a session with
state tracking off and no observed score fact answers zero on a score
read instead of failing with the missing-info error the claim requires
in exactly this situation. -/
theorem claim_C6_counterexample :
    init [] gameW false false = Except.ok initialStateW ∧
    initialStateW.state_tracking = false ∧
    lookupFact scoreKey initialStateW.extra_infos = none ∧
    score initialStateW = Except.ok 0 :=
  ⟨rfl, rfl, rfl, rfl⟩

/-- Claim C6 as amended: for every snapshot whose score has not already
been assigned at construction, the score read returns the tracker score
under state tracking, and otherwise parses the observed score fact as
an integer, failing with the missing-info error when the fact was never
observed. -/
theorem claim_C6 (st : GlulxGameState) (hc : st.score_cache = none) :
    (st.state_tracking = true → score st = .ok st.game_progression.progScore) ∧
    (st.state_tracking = false → lookupFact scoreKey st.extra_infos = none →
      score st = .error (.extraInfosMissing scoreKey)) ∧
    (∀ v n, st.state_tracking = false → lookupFact scoreKey st.extra_infos = some v →
      parsePyInt v = some n → score st = .ok n) := by
  refine ⟨?_, ?_, ?_⟩
  · intro h; simp [score, hc, h]
  · intro h hl; simp [score, hc, h, hl]
  · intro v n h hl hp; simp [score, hc, h, hl, hp]

theorem claim_C6_witness : score c6state = Except.ok 7 :=
  (claim_C6 c6state rfl).2.2 ['7'] 7 rfl rfl rfl

theorem sortedSet_nodup (l : List (List Char)) : (sortedSet l).Nodup :=
  (List.perm_insertionSort _ _).nodup_iff.mpr (List.nodup_dedup l)

theorem sortedSet_sorted (l : List (List Char)) : (sortedSet l).Sorted (· ≤ ·) :=
  List.sorted_insertionSort _ _

theorem sortedSet_mem (l : List (List Char)) (x : List Char) : x ∈ sortedSet l ↔ x ∈ l :=
  (List.perm_insertionSort _ _).mem_iff.trans (List.mem_dedup)

/-- Claim C5: under state tracking, the admissible commands are exactly
the renderings of the currently valid actions, with duplicates removed
and in sorted textual order (and, the function being deterministic on
the stored snapshot fields, two reads of the same snapshot agree);
without state tracking the access fails with the state-tracking
capability error. -/
theorem claim_C5 (st : GlulxGameState) :
    (st.state_tracking = false →
      admissible_commands st = .error (.stateTrackingRequired admissibleCommandsName)) ∧
    (st.state_tracking = true → (admissible_commands st).toOption.isSome = true) ∧
    (∀ l, admissible_commands st = .ok l →
      l.Nodup ∧ l.Sorted (· ≤ ·) ∧
      (∀ c, c ∈ l ↔
        c ∈ st.inform7.gen_commands_from_actions st.game_progression.valid_actions)) := by
  refine ⟨?_, ?_, ?_⟩
  · intro h; simp [admissible_commands, h]
  · intro h; simp [admissible_commands, h, Except.toOption]
  · intro l hl
    cases hst : st.state_tracking
    · simp [admissible_commands, hst] at hl
    · simp [admissible_commands, hst] at hl
      subst hl
      exact ⟨sortedSet_nodup _, sortedSet_sorted _, fun c => sortedSet_mem _ c⟩

theorem claim_C5_witness :
    (admissible_commands c5state).toOption.isSome = true ∧
    ([['a'], ['b']] : List (List Char)).Nodup ∧
    (['a'] ∈ ([['a'], ['b']] : List (List Char)) ↔
      ['a'] ∈ c5state.inform7.gen_commands_from_actions c5state.game_progression.valid_actions) :=
  ⟨(claim_C5 c5state).2.1 rfl,
    ((claim_C5 c5state).2.2 [['a'], ['b']] rfl).1,
    ((claim_C5 c5state).2.2 [['a'], ['b']] rfl).2.2 ['a']⟩

/-- Claim C7: a step fails with the not-running error when the
transport is dead on entry, and also when the channel closes mid-call,
in both cases returning no snapshot; the command actually sent is the
stripped command with the empty command normalized to a single space. -/
theorem claim_C7 (t : Transport) (st : GlulxGameState) (command : List Char) :
    (t.alive = false → stepEnv t st command = .error .gameNotRunning) ∧
    (t.respond (sentCommand command) = none →
      stepEnv t st command = .error .gameNotRunning) ∧
    sentCommand [] = [' '] := by
  refine ⟨?_, ?_, rfl⟩
  · intro h; simp [stepEnv, h]
  · intro h
    cases ha : t.alive
    · simp [stepEnv, ha]
    · simp [stepEnv, ha, h]

theorem claim_C7_witness :
    stepEnv deadTransport initialStateW ['x'] = Except.error PyError.gameNotRunning ∧
    sentCommand [] = [' '] :=
  ⟨(claim_C7 deadTransport initialStateW ['x']).1 rfl,
    (claim_C7 deadTransport initialStateW ['x']).2.2⟩

/-- Claim C4 as amended: every returned step result has its done flag
equal to has_won or has_lost or has_timeout, and its timeout flag set
exactly to whether the transport process had exited by the end of the
call, independently of the win or loss banners. -/
theorem claim_C4 (t : Transport) (st : GlulxGameState) (command : List Char)
    (st2 : GlulxGameState) (sc : Int) (done : Bool)
    (h : stepEnv t st command = .ok (st2, sc, done)) :
    done = (has_won st2 || has_lost st2 || st2.has_timeout) ∧
    st2.has_timeout = !t.aliveAfter := by
  simp only [stepEnv] at h
  cases ha : t.alive with
  | false => rw [ha] at h; simp at h
  | true =>
    rw [ha] at h
    simp only [Bool.not_true, not_true_eq_false, if_false, reduceIte] at h
    cases hr : t.respond (sentCommand command) with
    | none => rw [hr] at h; simp at h
    | some output =>
      rw [hr] at h
      dsimp only at h
      cases hu : update st (pyStrip command) output with
      | error e => rw [hu] at h; simp [Bind.bind, Except.bind] at h
      | ok st1 =>
        rw [hu] at h
        simp only [Bind.bind, Except.bind] at h
        cases hs : score { st1 with has_timeout := !t.aliveAfter } with
        | error e => rw [hs] at h; simp at h
        | ok sc1 =>
          rw [hs] at h
          simp only [] at h
          cases h
          exact ⟨rfl, rfl⟩

/-- Claim C4 counterexample: a transport that answers with the winning
banner and exits yields a successful step whose snapshot has both
has_won and has_timeout true, against the claim that has_timeout is
false whenever the game was won or lost. -/
theorem claim_C4_counterexample :
    (stepEnv cexTransport c4state ['x']).toOption.map
      (fun r => (has_won r.1, r.1.has_timeout, r.2.2)) = some (true, true, true) := rfl

theorem claim_C4_witness :
    c4out.2.2 = (has_won c4out.1 || has_lost c4out.1 || c4out.1.has_timeout) ∧
    c4out.1.has_timeout = !cexTransport.aliveAfter :=
  claim_C4 cexTransport c4state ['x'] c4out.1 c4out.2.1 c4out.2.2 rfl

theorem processTokens_spec (toks : List (List Char)) :
    ∀ text opens ms,
      processTokens toks text opens ms =
        match specEventsContain toks opens with
        | .error e => .error e
        | .ok r => .ok (ms ++ r.1, r.2, specClean text toks) := by
  induction toks with
  | nil => intro text opens ms; simp [processTokens, specEventsContain, specClean]
  | cons tok toks ih =>
    intro text opens ms
    rw [processTokens, specEventsContain]
    cases hf : splitFirst failedMarker (tagNameOf tok) with
    | some p =>
      dsimp only
      cases hrm : listRemove p.1 opens with
      | none => rfl
      | some opens2 =>
        dsimp only
        rw [ih]
        rfl
    | none =>
      dsimp only
      cases hs : splitFirst succeededMarker (tagNameOf tok) with
      | some p =>
        dsimp only
        cases hrm : listRemove p.1 opens with
        | none => rfl
        | some opens2 =>
          dsimp only
          rw [ih]
          cases hsp : specEventsContain toks opens2 with
          | error e => rfl
          | ok r => dsimp only; rw [List.append_assoc]; rfl
      | none =>
        dsimp only
        rw [ih]
        rfl

/-- Claim C3 counterexample: on a token that merely contains the failed
marker without ending in either marker, the claim prescribes opening a
new event and returning normally, while the source scanner treats it as
a close of the part before the marker and fails on the empty open
stack. -/
theorem claim_C3_counterexample :
    detect_i7_events_debug_tags "[x - failed y]".toList = Except.error PyError.valueError ∧
    specScanSuffix "[x - failed y]".toList = Except.ok ([], []) :=
  ⟨rfl, rfl⟩

/-- Claim C3 as amended: the scanner processes bracket tokens in text
order, where a tag name containing the failed marker (checked first) or
the succeeded marker closes an open event whose base name is the part
before the first marker occurrence (failed closes discarded, succeeded
ones recorded in encounter order, a close without a matching open being
fatal), any other name opens a new event, parenthesized names are
dropped from the returned success list but still balance the stack, and
the returned text has every matched token removed, as witnessed by
coincidence with the specification-side scanner on every input. -/
theorem claim_C3 (text : List Char) :
    detect_i7_events_debug_tags text = specScanContain text := by
  unfold detect_i7_events_debug_tags specScanContain
  rw [processTokens_spec]
  dsimp only
  cases h : specEventsContain (findTokens text) [] with
  | error e => rfl
  | ok r => dsimp only; rw [List.nil_append]


theorem splitFirst_nil_ne (pat : List Char) (h : pat ≠ []) : splitFirst pat [] = none := by
  cases pat with
  | nil => exact absurd rfl h
  | cons x xs => rfl

theorem isPrefixOf_self_append (l b : List Char) : l.isPrefixOf (l ++ b) = true := by
  induction l with
  | nil => simp [List.isPrefixOf]
  | cons x xs ih => simp [List.isPrefixOf, ih]

theorem splitFirst_cons_not_prefix (pat : List Char) (c : Char) (s : List Char)
    (h : pat.isPrefixOf (c :: s) = false) :
    splitFirst pat (c :: s) = (splitFirst pat s).map (fun p => (c :: p.1, p.2)) := by
  rw [splitFirst, h]
  simp

theorem head_eq_cons (pat : List Char) (a : Char) (hh : pat.head? = some a) :
    ∃ pt, pat = a :: pt := by
  cases pat with
  | nil => simp at hh
  | cons x xs =>
    simp at hh
    exact ⟨xs, by rw [hh]⟩

theorem splitFirst_append_left (a : Char) (pat s rest : List Char)
    (hh : pat.head? = some a) (hs : a ∉ s) :
    splitFirst pat (s ++ rest) = (splitFirst pat rest).map (fun p => (s ++ p.1, p.2)) := by
  induction s with
  | nil =>
    rw [List.nil_append]
    cases splitFirst pat rest <;> simp
  | cons c s ih =>
    simp only [List.mem_cons, not_or] at hs
    obtain ⟨pt, rfl⟩ := head_eq_cons pat a hh
    have hpre : (a :: pt).isPrefixOf (c :: (s ++ rest)) = false := by
      simp [List.isPrefixOf]
      intro hEq
      exact absurd hEq hs.1
    rw [List.cons_append, splitFirst_cons_not_prefix _ c _ hpre, ih hs.2]
    cases splitFirst (a :: pt) rest <;> simp

theorem splitFirst_none_of (a : Char) (pat s : List Char)
    (hh : pat.head? = some a) (hs : a ∉ s) : splitFirst pat s = none := by
  have h := splitFirst_append_left a pat s [] hh hs
  rw [List.append_nil] at h
  obtain ⟨pt, rfl⟩ := head_eq_cons pat a hh
  rw [h, splitFirst_nil_ne _ (by simp)]
  rfl

theorem splitFirst_at (a : Char) (pat s rest : List Char)
    (hh : pat.head? = some a) (hs : a ∉ s) :
    splitFirst pat (s ++ (pat ++ rest)) = some (s, rest) := by
  rw [splitFirst_append_left a pat s (pat ++ rest) hh hs]
  obtain ⟨pt, rfl⟩ := head_eq_cons pat a hh
  have hself : splitFirst (a :: pt) ((a :: pt) ++ rest) = some ([], rest) := by
    rw [List.cons_append, splitFirst]
    have hp : (a :: pt).isPrefixOf (a :: (pt ++ rest)) = true := by
      have := isPrefixOf_self_append (a :: pt) rest
      rwa [List.cons_append] at this
    rw [hp]
    simp [List.drop_left]
  rw [hself]
  simp

theorem splitLast_none_of (a : Char) (pat s : List Char)
    (hh : pat.head? = some a) (hs : a ∉ s) : splitLast pat s = none := by
  induction s with
  | nil =>
    obtain ⟨pt, rfl⟩ := head_eq_cons pat a hh
    rfl
  | cons c s ih =>
    simp only [List.mem_cons, not_or] at hs
    rw [splitLast, ih hs.2]
    obtain ⟨pt, rfl⟩ := head_eq_cons pat a hh
    have hpre : (a :: pt).isPrefixOf (c :: s) = false := by
      simp [List.isPrefixOf]
      intro hEq
      exact absurd hEq hs.1
    rw [hpre]
    simp

theorem splitLast_at (a : Char) (pat s rest : List Char)
    (hh : pat.head? = some a) (ht : a ∉ pat.tail) (hr : a ∉ rest) :
    splitLast pat (s ++ (pat ++ rest)) = some (s, rest) := by
  induction s with
  | nil =>
    rw [List.nil_append]
    obtain ⟨pt, rfl⟩ := head_eq_cons pat a hh
    simp only [List.tail_cons] at ht
    rw [List.cons_append, splitLast]
    have hnone : splitLast (a :: pt) (pt ++ rest) = none :=
      splitLast_none_of a _ _ hh (by simp [List.mem_append]; exact ⟨ht, hr⟩)
    rw [hnone]
    have hp : (a :: pt).isPrefixOf (a :: (pt ++ rest)) = true := by
      have := isPrefixOf_self_append (a :: pt) rest
      rwa [List.cons_append] at this
    rw [hp]
    simp [List.drop_left]
  | cons c s ih =>
    rw [List.cons_append, splitLast, ih]

theorem splitFirst_block_none (pat pre inner post : List Char)
    (hh : pat.head? = some '<')
    (hp1 : pat.isPrefixOf
      (blockOpen scoreKey ++ (inner ++ (blockClose scoreKey ++ post))) = false)
    (hp2 : pat.isPrefixOf (blockClose scoreKey ++ post) = false)
    (h1 : '<' ∉ pre) (h2 : '<' ∉ inner) (h3 : '<' ∉ post) :
    splitFirst pat
      (pre ++ (blockOpen scoreKey ++ (inner ++ (blockClose scoreKey ++ post)))) = none := by
  rw [splitFirst_append_left '<' pat pre _ hh h1]
  have e1 : blockOpen scoreKey ++ (inner ++ (blockClose scoreKey ++ post)) =
      '<' :: (['s', 'c', 'o', 'r', 'e', '>', '\n'] ++ (inner ++ (blockClose scoreKey ++ post))) :=
    rfl
  rw [e1] at hp1
  rw [e1, splitFirst_cons_not_prefix pat '<' _ hp1]
  rw [splitFirst_append_left '<' pat ['s', 'c', 'o', 'r', 'e', '>', '\n'] _ hh (by decide)]
  rw [splitFirst_append_left '<' pat inner _ hh h2]
  have e2 : blockClose scoreKey ++ post = '<' :: (['/', 's', 'c', 'o', 'r', 'e', '>'] ++ post) :=
    rfl
  rw [e2] at hp2
  rw [e2, splitFirst_cons_not_prefix pat '<' _ hp2]
  rw [splitFirst_append_left '<' pat ['/', 's', 'c', 'o', 'r', 'e', '>'] _ hh (by decide)]
  rw [splitFirst_none_of '<' pat post hh h3]
  rfl

/-- Claim C8 as amended: for every raw text made of a prefix, a single
well-formed score block and a suffix, none of which contain a further
angle-bracket markup character, normalization records exactly the inner
text of the block (after recursive event-tag removal) as the score fact
and returns the surrounding text with the whole block removed and
otherwise unchanged. -/
theorem claim_C8 (pre inner post : List Char) (evts : List (List Char)) (cleaned : List Char)
    (h1 : '<' ∉ pre) (h2 : '<' ∉ inner) (h3 : '<' ∉ post)
    (h4 : detect_i7_events_debug_tags inner = .ok (evts, cleaned)) :
    detect_extra_infos (pre ++ (blockOpen scoreKey ++ (inner ++ (blockClose scoreKey ++ post)))) =
      .ok ([(scoreKey, cleaned)], pre ++ post) := by
  have hdesc : splitFirst (blockOpen descKey)
      (pre ++ (blockOpen scoreKey ++ (inner ++ (blockClose scoreKey ++ post)))) = none := by
    refine splitFirst_block_none _ pre inner post rfl ?_ ?_ h1 h2 h3
    · simp [blockOpen, descKey, scoreKey, List.isPrefixOf]
    · simp [blockOpen, blockClose, descKey, scoreKey, List.isPrefixOf]
  have hinv : splitFirst (blockOpen invKey)
      (pre ++ (blockOpen scoreKey ++ (inner ++ (blockClose scoreKey ++ post)))) = none := by
    refine splitFirst_block_none _ pre inner post rfl ?_ ?_ h1 h2 h3
    · simp [blockOpen, invKey, scoreKey, List.isPrefixOf]
    · simp [blockOpen, blockClose, invKey, scoreKey, List.isPrefixOf]
  have ha1 : applyTag descKey ([], pre ++ (blockOpen scoreKey ++
      (inner ++ (blockClose scoreKey ++ post)))) = .ok ([], pre ++ (blockOpen scoreKey ++
      (inner ++ (blockClose scoreKey ++ post)))) := by
    unfold applyTag
    rw [hdesc]
  have ha2 : applyTag invKey ([], pre ++ (blockOpen scoreKey ++
      (inner ++ (blockClose scoreKey ++ post)))) = .ok ([], pre ++ (blockOpen scoreKey ++
      (inner ++ (blockClose scoreKey ++ post)))) := by
    unfold applyTag
    rw [hinv]
  have ha3 : applyTag scoreKey ([], pre ++ (blockOpen scoreKey ++
      (inner ++ (blockClose scoreKey ++ post)))) =
      .ok ([(scoreKey, cleaned)], pre ++ post) := by
    unfold applyTag
    rw [show ((([] : List (List Char × List Char)), pre ++ (blockOpen scoreKey ++
      (inner ++ (blockClose scoreKey ++ post)))).2 = pre ++ (blockOpen scoreKey ++
      (inner ++ (blockClose scoreKey ++ post)))) from rfl]
    rw [splitFirst_at '<' (blockOpen scoreKey) pre (inner ++ (blockClose scoreKey ++ post))
      rfl h1]
    dsimp only
    rw [splitLast_at '<' (blockClose scoreKey) inner post rfl (by decide) h3]
    dsimp only
    rw [h4]
    simp
  unfold detect_extra_infos
  rw [ha1]
  simp only [Bind.bind, Except.bind]
  rw [ha2]
  dsimp only
  exact ha3

/-- Claim C8 counterexample: a raw text containing a score block nested
inside a description block: normalization swallows the score block into
the description fact and records no score fact at all, against the
claim that every raw text containing a score block has its inner text
extracted as the score fact. -/
theorem claim_C8_counterexample :
    detect_extra_infos c8nested =
      Except.ok ([(descKey, "<score>\n7\n</score>".toList)], []) ∧
    lookupFact scoreKey [(descKey, "<score>\n7\n</score>".toList)] = none :=
  ⟨rfl, rfl⟩

theorem claim_C8_witness :
    detect_extra_infos (['A'] ++ (blockOpen scoreKey ++ (['7', '\n'] ++
        (blockClose scoreKey ++ ['B'])))) =
      Except.ok ([(scoreKey, ['7', '\n'])], ['A'] ++ ['B']) :=
  claim_C8 ['A'] ['7', '\n'] ['B'] [] ['7', '\n']
    (by decide) (by decide) (by decide) rfl
